import Mathlib

/-!
Verification development for the resume-screening application
(src/resume-screening/app.py).

The Python program is shallowly embedded below.  Scores (Python floats)
are modelled as rationals; Python strings are Lean strings; the external
collaborators that the program calls but does not implement
(base64.b64decode, pdfplumber page extraction, the SentenceTransformer
model's encode) are parameters gathered in an `Env` record, so that the
orchestration logic of the source is what the theorems speak about.
Side effects (the file write, each embedding-provider invocation) are
made explicit as an effect log returned alongside the value.
-/

namespace ResumeScreening

/-- The three recommendation tiers of the application
("Strong Fit", "Moderate Fit", "Poor Fit"). -/
inductive Tier where
  | StrongFit
  | ModerateFit
  | PoorFit
deriving DecidableEq

/-- app.py lines 166-170: the chained conditional
`"Strong Fit" if score >= 75 else "Moderate Fit" if score >= 50 else "Poor Fit"`. -/
def classify (score : ℚ) : Tier :=
  if 75 ≤ score then Tier.StrongFit
  else if 50 ≤ score then Tier.ModerateFit
  else Tier.PoorFit

/-- The exact recommendation strings the source attaches to each tier. -/
def tierLabel : Tier → String
  | Tier.StrongFit => "Strong Fit ✅"
  | Tier.ModerateFit => "Moderate Fit ⚠️"
  | Tier.PoorFit => "Poor Fit ❌"

/-- Round to the nearest integer, ties to even: the idealised semantics of
Python's built-in `round` on exact halves. -/
def roundHalfEven (x : ℚ) : ℤ :=
  if x - ⌊x⌋ < 1/2 then ⌊x⌋
  else if 1/2 < x - ⌊x⌋ then ⌊x⌋ + 1
  else if ⌊x⌋ % 2 = 0 then ⌊x⌋ else ⌊x⌋ + 1

/-- app.py line 28: `round(score, 2)` — round to two decimal places. -/
def round2 (x : ℚ) : ℚ := ((roundHalfEven (x * 100) : ℤ) : ℚ) / 100

/-- Dot product of two vectors given as lists (trailing entries of the longer
vector are ignored; the single fixed model always produces equal lengths).
Because app.py line 25-26 calls `model.encode` with
`normalize_embeddings=True`, `util.cos_sim` of the two unit vectors equals
their dot product. -/
def dot : List ℚ → List ℚ → ℚ
  | a :: ta, b :: tb => a * b + dot ta tb
  | _, _ => 0

/-- app.py line 23: `jd = f"query: {job_desc}"` — the E5 query-role framing
applied to the job description. -/
def normalizeQuery (text : String) : String := "query: " ++ text

/-- app.py line 24: `rs = f"passage: {resume_text}"` — the E5 passage-role
framing applied to the resume text. -/
def normalizePassage (text : String) : String := "passage: " ++ text

/-- app.py lines 17-28, instrumented: `compute_similarity` together with the
ordered list of texts it sends to the embedding provider (the job description
is encoded first, then the resume, lines 25-26). -/
def computeSimilarityT (emb : String → List ℚ) (resume_text job_desc : String) :
    ℚ × List String :=
  let jd := normalizeQuery job_desc
  let rs := normalizePassage resume_text
  (round2 (dot (emb rs) (emb jd) * 100), [jd, rs])

/-- app.py lines 17-28: the similarity score itself,
`round(util.cos_sim(emb_rs, emb_jd).item() * 100.0, 2)`. -/
def compute_similarity (emb : String → List ℚ) (resume_text job_desc : String) : ℚ :=
  (computeSimilarityT emb resume_text job_desc).1

/-- Helper for `pySplitComma`: accumulate the current field until a comma. -/
def splitCommaAux : List Char → List Char → List (List Char)
  | [], acc => [acc.reverse]
  | c :: cs, acc =>
    if c = ',' then acc.reverse :: splitCommaAux cs [] else splitCommaAux cs (c :: acc)

/-- Python `s.split(',')`: the comma-separated fields of `s`, in order. -/
def pySplitComma (s : String) : List String :=
  (splitCommaAux s.data []).map fun l => String.mk l

/-- The whitespace characters stripped by Python's `str.strip()`
(ASCII subset). -/
def isPySpace (c : Char) : Bool :=
  c == ' ' || c == '\t' || c == '\n' || c == '\r' || c == '\x0b' || c == '\x0c'

/-- Python `s.strip()`: remove leading and trailing whitespace. -/
def pyStrip (s : String) : String :=
  String.mk (((s.data.dropWhile isPySpace).reverse.dropWhile isPySpace).reverse)

/-- app.py lines 128-133: concatenate `page.extract_text() or ""` plus a space
for every page, then strip the result.  The per-page texts produced by
pdfplumber are the input (a `none` page models `extract_text()` returning
`None`). -/
def extract_text_from_pdf (pages : List (Option String)) : String :=
  pyStrip (pages.foldl (fun acc p => acc ++ p.getD "" ++ " ") "")

/-- The external collaborators of the pipeline, injected exactly as §6 of the
design describes: base64 decoding, PDF page extraction (keyed by the decoded
bytes that were written to disk), and the embedding model. `embed` is total
and deterministic (a fixed loaded model). -/
structure Env where
  decode : String → Except String String
  pdfPages : String → Except String (List (Option String))
  embed : String → List ℚ

/-- The observable side effects of one callback run: writing an uploaded file
to the upload directory, and one invocation of the embedding provider. -/
inductive Effect where
  | writeFile (path : String)
  | embed (text : String)
deriving DecidableEq

/-- One row of the result table (one Match Result). -/
structure MatchRow where
  resume : String
  score : ℚ
  recommendation : String
deriving DecidableEq

/-- app.py lines 177-180: the row appended when processing a document raised:
score 0 and the text `"Error: " ++ msg` in the recommendation column. -/
def errRow (filename msg : String) : MatchRow :=
  { resume := filename, score := 0, recommendation := "Error: " ++ msg }

/-- app.py lines 154-180, one loop iteration: split the data URL on commas and
unpack into two parts (a `ValueError` otherwise), base64-decode, write the
bytes to `./data/resumes/<filename>`, extract the PDF text, score it and
classify.  Any failure on the way is caught and becomes an `errRow`. -/
def processDoc (env : Env) (job_desc content filename : String) :
    MatchRow × List Effect :=
  match pySplitComma content with
  | [_, content_string] =>
    match env.decode content_string with
    | Except.ok decoded =>
      match env.pdfPages decoded with
      | Except.ok pages =>
        let resume_text := extract_text_from_pdf pages
        let p := computeSimilarityT env.embed resume_text job_desc
        ({ resume := filename, score := p.1,
           recommendation := tierLabel (classify p.1) },
         Effect.writeFile ("./data/resumes/" ++ filename) :: p.2.map Effect.embed)
      | Except.error e =>
        (errRow filename e, [Effect.writeFile ("./data/resumes/" ++ filename)])
    | Except.error e => (errRow filename e, [])
  | _ => (errRow filename "not enough values to unpack (expected 2)", [])

/-- Does every fallible stage of `processDoc` succeed for this content?
True exactly when `processDoc` takes its non-error branch. -/
def docOk (env : Env) (content : String) : Bool :=
  match pySplitComma content with
  | [_, content_string] =>
    match env.decode content_string with
    | Except.ok decoded =>
      match env.pdfPages decoded with
      | Except.ok _ => true
      | Except.error _ => false
    | Except.error _ => false
  | _ => false

/-- app.py lines 153-180: the `results` list built by the
`for content, filename in zip(contents, filenames)` loop, in submission
order, together with the concatenated effect log. -/
def buildResults (env : Env) (job_desc : String) :
    List (String × String) → List MatchRow × List Effect
  | [] => ([], [])
  | (content, filename) :: rest =>
    let p := processDoc env job_desc content filename
    let r := buildResults env job_desc rest
    (p.1 :: r.1, p.2 ++ r.2)

/-- Stable insertion into an ascending-by-key list (an earlier element being
inserted goes in front of later elements with an equal key). -/
def insertAsc (key : α → ℚ) (r : α) : List α → List α
  | [] => [r]
  | x :: xs => if key r ≤ key x then r :: x :: xs else x :: insertAsc key r xs

/-- Stable ascending sort by key (insertion sort). -/
def sortAsc (key : α → ℚ) : List α → List α
  | [] => []
  | x :: xs => insertAsc key x (sortAsc key xs)

/-- app.py line 182: `df.sort_values("Match Score (%)", ascending=False)`.
pandas' `nargsort` handles a descending sort by reversing the values,
argsorting ascending with the caller's kind, and reversing the resulting
indexer.  `sort_values` defaults to `kind='quicksort'` (numpy introsort),
which is a correct comparison sort but fixes a particular tie order only in
its small-array insertion-sort regime; this model realises the ascending
sort with an insertion sort, and the development relies only on the
kind-independent consequences — permutation of the input, length
preservation and descending order by key (`pandasSortValuesDesc_perm`,
`pandasSortValuesDesc_length`, `pandasSortValuesDesc_sorted`) — never on
the model's tie order, which the program does not guarantee in general. -/
def pandasSortValuesDesc (key : α → ℚ) (l : List α) : List α :=
  (sortAsc key l.reverse).reverse

/-- The value returned to the `results` div. -/
inductive Output where
  | empty
  | alert (message : String)
  | results (table : List MatchRow) (topScore : ℚ) (count : Nat)
  | callbackError
deriving DecidableEq

/-- The table carried by a `results` output (empty list otherwise). -/
def outputRows : Output → List MatchRow
  | Output.results t _ _ => t
  | _ => []

/-- Whether the output is the ranked-results view. -/
def isResultsOutput : Output → Bool
  | Output.results _ _ _ => true
  | _ => false

/-- Python truthiness test `not contents` on the upload state: `None` or the
empty list are falsy. -/
def pyFalsyList (c : Option (List String)) : Bool :=
  match c with
  | none => true
  | some [] => true
  | some (_ :: _) => false

/-- Python truthiness test `not job_desc`: `None` or the empty string are
falsy (a whitespace-only string is truthy). -/
def pyFalsyStr (s : Option String) : Bool :=
  match s with
  | none => true
  | some t => t == ""

/-- app.py lines 153-208 for a validated request: build the per-document
rows, sort descending by score, and render the summary card
(`df.iloc[0]` on the score column, `len(df)`) plus the table.  An empty
sorted frame would make `df.iloc[0]` raise, modelled by `callbackError`. -/
def analyzeValid (env : Env) (contents : List String) (filenames : List String)
    (jd : String) : Output × List Effect :=
  let br := buildResults env jd (contents.zip filenames)
  let sorted := pandasSortValuesDesc (fun r => r.score) br.1
  match sorted with
  | [] => (Output.callbackError, br.2)
  | top :: _ => (Output.results sorted top.score sorted.length, br.2)

/-- app.py lines 145-208: the `analyze_resumes` callback.  `n_clicks == 0`
returns the empty children; a falsy upload state or job description returns
the alert; otherwise the batch is processed. -/
def analyze_resumes (env : Env) (n_clicks : Nat) (contents : Option (List String))
    (filenames : List String) (job_desc : Option String) : Output × List Effect :=
  if n_clicks = 0 then (Output.empty, [])
  else if pyFalsyList contents || pyFalsyStr job_desc then
    (Output.alert "Please upload resumes and provide a job description.", [])
  else analyzeValid env (contents.getD []) filenames (job_desc.getD "")

/-- The texts sent to the embedding provider, in order, within an effect log. -/
def embedTexts (effs : List Effect) : List String :=
  effs.filterMap fun e =>
    match e with
    | Effect.embed t => some t
    | _ => none

/-- Is this row an error row?  Success rows carry exactly the tier label of
their classified score; error rows carry an `"Error: ..."` text instead. -/
def isErrorRow (r : MatchRow) : Bool :=
  r.recommendation != tierLabel (classify r.score)

/-- The ordering property asserted by the specification: every errored entry
appears strictly below (at a larger index than) every successfully scored
entry of the table. -/
def ErroredBelowScored (t : List MatchRow) : Prop :=
  ∀ i j (hi : i < t.length) (hj : j < t.length),
    isErrorRow (t.get ⟨i, hi⟩) = true → isErrorRow (t.get ⟨j, hj⟩) = false → j < i

/-- The submitted documents of a request: the Dash upload state zipped with
its parallel filename list, exactly as the source's
`zip(contents, filenames)`. -/
def requestDocs (contents : Option (List String)) (filenames : List String) :
    List (String × String) :=
  (contents.getD []).zip filenames

/-- The result table the callback renders for a request. -/
def requestRows (env : Env) (n_clicks : Nat) (contents : Option (List String))
    (filenames : List String) (job_desc : Option String) : List MatchRow :=
  outputRows (analyze_resumes env n_clicks contents filenames job_desc).1

/-- A fully successful test environment: base64 decoding and PDF extraction
are the identity, every text embeds to the unit vector `[1]`. -/
def envW : Env :=
  { decode := fun s => Except.ok s
    pdfPages := fun s => Except.ok [some s]
    embed := fun _ => [1] }

/-- A test environment whose model puts the job description `"jd"` and every
resume at antipodal unit vectors, so a successful resume scores `-100`. -/
def envC3 : Env :=
  { decode := fun s => Except.ok s
    pdfPages := fun s => Except.ok [some s]
    embed := fun t => if t = "query: jd" then [-1] else [1] }

/-- A unit-normalised embedding with cosine `-7/25` between the passage
framing of `"r"` and the query framing of `"j"`. -/
def embC1 : String → List ℚ :=
  fun t => if t = "query: j" then [3/5, -4/5] else [3/5, 4/5]

/-! ### Helper lemmas: the stable descending sort -/

theorem insertAsc_perm (key : α → ℚ) (r : α) (l : List α) :
    (insertAsc key r l).Perm (r :: l) := by
  induction l with
  | nil => simp [insertAsc]
  | cons x xs ih =>
    simp only [insertAsc]
    by_cases h : key r ≤ key x
    · rw [if_pos h]
    · rw [if_neg h]
      exact (List.Perm.cons x ih).trans (List.Perm.swap r x xs)

theorem mem_insertAsc (key : α → ℚ) (r : α) (l : List α) (a : α) :
    a ∈ insertAsc key r l ↔ a = r ∨ a ∈ l := by
  rw [(insertAsc_perm key r l).mem_iff, List.mem_cons]

theorem sortAsc_perm (key : α → ℚ) (l : List α) : (sortAsc key l).Perm l := by
  induction l with
  | nil => simp [sortAsc]
  | cons x xs ih =>
    exact (insertAsc_perm key x (sortAsc key xs)).trans (List.Perm.cons x ih)

theorem insertAsc_pairwise_le (key : α → ℚ) (r : α) (l : List α)
    (hl : l.Pairwise fun a b => key a ≤ key b) :
    (insertAsc key r l).Pairwise fun a b => key a ≤ key b := by
  induction l with
  | nil => simp [insertAsc]
  | cons x xs ih =>
    rcases List.pairwise_cons.mp hl with ⟨hx, hxs⟩
    simp only [insertAsc]
    by_cases h : key r ≤ key x
    · rw [if_pos h]
      refine List.pairwise_cons.mpr ⟨?_, hl⟩
      intro b hb
      rcases List.mem_cons.mp hb with rfl | hbxs
      · exact h
      · exact h.trans (hx b hbxs)
    · rw [if_neg h]
      refine List.pairwise_cons.mpr ⟨?_, ih hxs⟩
      intro b hb
      rcases (mem_insertAsc key r xs b).mp hb with rfl | hbxs
      · exact le_of_not_le h
      · exact hx b hbxs

theorem sortAsc_pairwise_le (key : α → ℚ) (l : List α) :
    (sortAsc key l).Pairwise fun a b => key a ≤ key b := by
  induction l with
  | nil => simp [sortAsc]
  | cons x xs ih => exact insertAsc_pairwise_le key x (sortAsc key xs) ih

theorem pandasSortValuesDesc_perm (key : α → ℚ) (l : List α) :
    (pandasSortValuesDesc key l).Perm l :=
  ((List.reverse_perm _).trans (sortAsc_perm key l.reverse)).trans
    (List.reverse_perm l)

theorem pandasSortValuesDesc_length (key : α → ℚ) (l : List α) :
    (pandasSortValuesDesc key l).length = l.length :=
  (pandasSortValuesDesc_perm key l).length_eq

theorem pandasSortValuesDesc_sorted (key : α → ℚ) (l : List α) :
    (pandasSortValuesDesc key l).Pairwise fun a b => key b ≤ key a := by
  rw [pandasSortValuesDesc, List.pairwise_reverse]
  exact sortAsc_pairwise_le key l.reverse

/-! ### Helper lemmas: the dot product and rounding -/

theorem dot_self_nonneg (a : List ℚ) : 0 ≤ dot a a := by
  induction a with
  | nil => simp [dot]
  | cons x xs ih =>
    simp only [dot]
    nlinarith [mul_self_nonneg x]

theorem dot_sq_le (a b : List ℚ) : dot a b ^ 2 ≤ dot a a * dot b b := by
  induction a generalizing b with
  | nil => simp [dot]
  | cons x xs ih =>
    cases b with
    | nil => simp [dot, mul_nonneg (dot_self_nonneg (x :: xs))]
    | cons y ys =>
      have hA := dot_self_nonneg xs
      have hB := dot_self_nonneg ys
      have hd := ih ys
      simp only [dot]
      rcases eq_or_lt_of_le hA with h0 | hpos
      · have h1 : dot xs ys ^ 2 = 0 :=
          le_antisymm (by nlinarith) (sq_nonneg _)
        have h2 : dot xs ys = 0 := by
          exact pow_eq_zero_iff (two_ne_zero) |>.mp h1
        rw [h2, ← h0]
        nlinarith [mul_nonneg (mul_self_nonneg x) hB]
      · have key : dot xs xs *
            ((x * x + dot xs xs) * (y * y + dot ys ys) - (x * y + dot xs ys) ^ 2) =
            (x * dot xs ys - y * dot xs xs) ^ 2 +
              (x * x + dot xs xs) * (dot xs xs * dot ys ys - dot xs ys ^ 2) := by
          ring
        nlinarith [key, sq_nonneg (x * dot xs ys - y * dot xs xs),
          mul_nonneg (by nlinarith [mul_self_nonneg x] : (0:ℚ) ≤ x * x + dot xs xs)
            (by nlinarith : (0:ℚ) ≤ dot xs xs * dot ys ys - dot xs ys ^ 2)]

theorem dot_abs_le_one {a b : List ℚ} (ha : dot a a = 1) (hb : dot b b = 1) :
    -1 ≤ dot a b ∧ dot a b ≤ 1 := by
  have h := dot_sq_le a b
  rw [ha, hb] at h
  constructor
  · nlinarith [sq_nonneg (dot a b + 1)]
  · nlinarith [sq_nonneg (dot a b - 1)]

theorem floor_le_roundHalfEven (x : ℚ) : ⌊x⌋ ≤ roundHalfEven x := by
  unfold roundHalfEven
  split
  · exact le_refl _
  · split
    · omega
    · split
      · exact le_refl _
      · omega

theorem roundHalfEven_le_ceil (x : ℚ) : roundHalfEven x ≤ ⌈x⌉ := by
  have hstep : ¬ x - ⌊x⌋ < 1/2 → ⌊x⌋ + 1 ≤ ⌈x⌉ := by
    intro h
    have hx : (⌊x⌋ : ℚ) < x := by
      have h2 : (1:ℚ)/2 ≤ x - ⌊x⌋ := not_lt.mp h
      nlinarith
    have hlt : ⌊x⌋ < ⌈x⌉ := by
      have : (⌊x⌋ : ℚ) < (⌈x⌉ : ℚ) := lt_of_lt_of_le hx (Int.le_ceil x)
      exact_mod_cast this
    exact hlt
  unfold roundHalfEven
  split
  · exact Int.floor_le_ceil x
  · rename_i h
    split
    · exact hstep h
    · split
      · exact Int.floor_le_ceil x
      · exact hstep h

theorem round2_bounds {x : ℚ} (hlo : -100 ≤ x) (hhi : x ≤ 100) :
    -100 ≤ round2 x ∧ round2 x ≤ 100 := by
  have hf : (-10000 : ℤ) ≤ ⌊x * 100⌋ := by
    have : ((-10000 : ℤ) : ℚ) ≤ x * 100 := by push_cast; nlinarith
    simpa using Int.le_floor.mpr this
  have hc : ⌈x * 100⌉ ≤ (10000 : ℤ) := by
    have : x * 100 ≤ ((10000 : ℤ) : ℚ) := by push_cast; nlinarith
    simpa using Int.ceil_le.mpr this
  have h1 : (-10000 : ℤ) ≤ roundHalfEven (x * 100) :=
    le_trans hf (floor_le_roundHalfEven _)
  have h2 : roundHalfEven (x * 100) ≤ (10000 : ℤ) :=
    le_trans (roundHalfEven_le_ceil _) hc
  have c1 : ((-10000 : ℤ) : ℚ) ≤ (roundHalfEven (x * 100) : ℚ) := by exact_mod_cast h1
  have c2 : ((roundHalfEven (x * 100) : ℤ) : ℚ) ≤ ((10000 : ℤ) : ℚ) := by exact_mod_cast h2
  rw [round2]
  push_cast at c1 c2
  constructor <;> linarith

/-! ### Helper lemmas: batch structure -/

theorem buildResults_fst (env : Env) (jd : String) (docs : List (String × String)) :
    (buildResults env jd docs).1 =
      docs.map fun d => (processDoc env jd d.1 d.2).1 := by
  induction docs with
  | nil => rfl
  | cons d rest ih =>
    cases d with
    | mk c f => simp [buildResults, ih]

theorem buildResults_snd (env : Env) (jd : String) (docs : List (String × String)) :
    (buildResults env jd docs).2 =
      (docs.map fun d => (processDoc env jd d.1 d.2).2).foldr List.append [] := by
  induction docs with
  | nil => rfl
  | cons d rest ih =>
    cases d with
    | mk c f => simp [buildResults, ih]

theorem buildResults_length (env : Env) (jd : String)
    (docs : List (String × String)) :
    (buildResults env jd docs).1.length = docs.length := by
  rw [buildResults_fst]
  exact List.length_map docs _

theorem processDoc_fail (env : Env) (jd c f : String) (h : docOk env c = false) :
    ∃ e, (processDoc env jd c f).1 = errRow f e := by
  rcases hs : pySplitComma c with _ | ⟨a, _ | ⟨b, _ | ⟨x, rest⟩⟩⟩
  · exact ⟨"not enough values to unpack (expected 2)", by simp [processDoc, hs]⟩
  · exact ⟨"not enough values to unpack (expected 2)", by simp [processDoc, hs]⟩
  · rcases hd : env.decode b with e | d
    · exact ⟨e, by simp [processDoc, hs, hd]⟩
    · rcases hp : env.pdfPages d with e | pages
      · exact ⟨e, by simp [processDoc, hs, hd, hp]⟩
      · have h2 : docOk env c = true := by simp [docOk, hs, hd, hp]
        rw [h2] at h
        exact absurd h (by simp)
  · exact ⟨"not enough values to unpack (expected 2)", by simp [processDoc, hs]⟩

theorem processDoc_ok (env : Env) (jd c f : String) (h : docOk env c = true) :
    ∃ rt, processDoc env jd c f =
      ({ resume := f, score := compute_similarity env.embed rt jd,
         recommendation := tierLabel (classify (compute_similarity env.embed rt jd)) },
       [Effect.writeFile ("./data/resumes/" ++ f),
        Effect.embed (normalizeQuery jd), Effect.embed (normalizePassage rt)]) := by
  rcases hs : pySplitComma c with _ | ⟨a, _ | ⟨b, _ | ⟨x, rest⟩⟩⟩
  · simp [docOk, hs] at h
  · simp [docOk, hs] at h
  · rcases hd : env.decode b with e | d
    · simp [docOk, hs, hd] at h
    · rcases hp : env.pdfPages d with e | pages
      · simp [docOk, hs, hd, hp] at h
      · exact ⟨extract_text_from_pdf pages,
          by simp [processDoc, hs, hd, hp, computeSimilarityT, compute_similarity]⟩
  · simp [docOk, hs] at h

theorem errRow_recommendation_ne_empty (f e : String) :
    (errRow f e).recommendation ≠ "" := by
  intro h
  have h2 : ("Error: " ++ e).length = (0 : Nat) := by
    rw [show (errRow f e).recommendation = "Error: " ++ e from rfl] at h
    rw [h]
    rfl
  rw [String.length_append, show "Error: ".length = 7 from rfl] at h2
  omega

theorem string_data_append (s t : String) : (s ++ t).data = s.data ++ t.data := by
  cases s
  cases t
  rfl

theorem normalizePassage_ne_normalizeQuery (t u : String) :
    normalizePassage t ≠ normalizeQuery u := by
  cases t with
  | mk dt =>
    cases u with
    | mk du =>
      intro h
      have h2 := congrArg String.data h
      rw [normalizePassage, normalizeQuery, string_data_append,
        string_data_append] at h2
      have h3 : ("passage: ".data ++ dt).head? = ("query: ".data ++ du).head? := by
        rw [h2]
      rw [show "passage: ".data = 'p' :: "assage: ".data from rfl,
        show "query: ".data = 'q' :: "uery: ".data from rfl] at h3
      simp at h3

/-! ### Helper lemmas: the callback -/

theorem analyze_resumes_valid (env : Env) (n : Nat)
    (contents : Option (List String)) (filenames : List String)
    (job_desc : Option String) (hn : n ≠ 0) (hc : pyFalsyList contents = false)
    (hj : pyFalsyStr job_desc = false) :
    analyze_resumes env n contents filenames job_desc =
      analyzeValid env (contents.getD []) filenames (job_desc.getD "") := by
  unfold analyze_resumes
  rw [if_neg hn, if_neg (by simp [hc, hj])]

theorem analyzeValid_snd (env : Env) (cs fs : List String) (jd : String) :
    (analyzeValid env cs fs jd).2 = (buildResults env jd (cs.zip fs)).2 := by
  simp only [analyzeValid]
  split <;> rfl

theorem analyzeValid_rows (env : Env) (cs fs : List String) (jd : String)
    (h : cs.zip fs ≠ []) :
    outputRows (analyzeValid env cs fs jd).1 =
      pandasSortValuesDesc (fun r => r.score) (buildResults env jd (cs.zip fs)).1 ∧
    isResultsOutput (analyzeValid env cs fs jd).1 = true := by
  have hne : pandasSortValuesDesc (fun r => r.score)
      (buildResults env jd (cs.zip fs)).1 ≠ [] := by
    intro h0
    have hlen := pandasSortValuesDesc_length (fun r => r.score)
      (buildResults env jd (cs.zip fs)).1
    rw [h0, buildResults_length] at hlen
    exact h (List.length_eq_zero.mp hlen.symm)
  simp only [analyzeValid]
  cases hsorted : pandasSortValuesDesc (fun r => r.score)
      (buildResults env jd (cs.zip fs)).1 with
  | nil => exact absurd hsorted hne
  | cons top rest => simp [outputRows, isResultsOutput]

theorem nonempty_docs_of_valid {contents : Option (List String)}
    {filenames : List String} (hc : pyFalsyList contents = false)
    (hlen : (contents.getD []).length = filenames.length) :
    (contents.getD []).zip filenames ≠ [] := by
  cases contents with
  | none => simp [pyFalsyList] at hc
  | some l =>
    cases l with
    | nil => simp [pyFalsyList] at hc
    | cons x xs =>
      cases filenames with
      | nil => simp at hlen
      | cons y ys => simp [List.zip]

theorem buildResults_embedTexts_ok (env : Env) (jd : String)
    (docs : List (String × String)) (hok : ∀ d ∈ docs, docOk env d.1 = true) :
    (embedTexts (buildResults env jd docs).2).length = 2 * docs.length ∧
    (embedTexts (buildResults env jd docs).2).count (normalizeQuery jd) =
      docs.length := by
  induction docs with
  | nil => simp [buildResults, embedTexts]
  | cons d rest ih =>
    obtain ⟨c, f⟩ := d
    have hd := hok (c, f) (List.mem_cons_self _ _)
    obtain ⟨rt, hpd⟩ := processDoc_ok env jd c f hd
    have ihr := ih fun d2 hd2 => hok d2 (List.mem_cons_of_mem _ hd2)
    have hne : (normalizePassage rt == normalizeQuery jd) = false :=
      beq_eq_false_iff_ne.mpr (normalizePassage_ne_normalizeQuery rt jd)
    simp only [buildResults, hpd, embedTexts, List.filterMap_append] at *
    constructor
    · simp only [List.length_append, List.filterMap_cons]
      simp only [List.filterMap_nil, List.length_cons, List.length_nil]
      omega
    · simp only [List.count_append, List.filterMap_cons, List.filterMap_nil]
      rw [List.count_cons, List.count_cons, List.count_nil]
      simp [hne, ihr.2]
      omega

/-! ### The claims -/

/-- Claim C4: the classifier is total on scores with inclusive lower bounds:
`classify s = StrongFit` for `s ≥ 75`, `ModerateFit` for `50 ≤ s < 75`,
`PoorFit` for `s < 50`; in particular `classify 75 = StrongFit`,
`classify 74.99 = ModerateFit`, `classify 50 = ModerateFit`,
`classify 49.99 = PoorFit`. -/
theorem C4_classifier_boundaries :
    (∀ s : ℚ, 75 ≤ s → classify s = Tier.StrongFit) ∧
    (∀ s : ℚ, 50 ≤ s → s < 75 → classify s = Tier.ModerateFit) ∧
    (∀ s : ℚ, s < 50 → classify s = Tier.PoorFit) ∧
    classify 75 = Tier.StrongFit ∧
    classify (7499/100) = Tier.ModerateFit ∧
    classify 50 = Tier.ModerateFit ∧
    classify (4999/100) = Tier.PoorFit := by
  refine ⟨?_, ?_, ?_, ?_, ?_, ?_, ?_⟩
  · intro s h
    unfold classify
    rw [if_pos h]
  · intro s h1 h2
    unfold classify
    rw [if_neg (not_le.mpr h2), if_pos h1]
  · intro s h
    unfold classify
    rw [if_neg (not_le.mpr (h.trans (by norm_num))), if_neg (not_le.mpr h)]
  · norm_num [classify]
  · norm_num [classify]
  · norm_num [classify]
  · norm_num [classify]

/-- Witness for C4 at concrete scores. -/
theorem C4_witness :
    classify 80 = Tier.StrongFit ∧ classify 60 = Tier.ModerateFit ∧
    classify 10 = Tier.PoorFit :=
  ⟨C4_classifier_boundaries.1 80 (by norm_num),
   C4_classifier_boundaries.2.1 60 (by norm_num) (by norm_num),
   C4_classifier_boundaries.2.2.1 10 (by norm_num)⟩

/-- Claim C9: the tier expression is total over all rational scores, not only
[0, 100]: every score below 50 — including the negative scores the unclamped
cosine-times-100 mapping can produce, down to -100 — classifies as PoorFit,
and every score lands in one of the three tiers (no branch is missing). -/
theorem C9_classifier_total :
    (∀ s : ℚ, s < 50 → classify s = Tier.PoorFit) ∧
    (∀ s : ℚ, classify s = Tier.StrongFit ∨ classify s = Tier.ModerateFit ∨
      classify s = Tier.PoorFit) := by
  constructor
  · intro s h
    unfold classify
    rw [if_neg (not_le.mpr (h.trans (by norm_num))), if_neg (not_le.mpr h)]
  · intro s
    unfold classify
    split
    · exact Or.inl rfl
    · split
      · exact Or.inr (Or.inl rfl)
      · exact Or.inr (Or.inr rfl)

/-- Witness for C9 at the extreme negative score `-100`. -/
theorem C9_witness : classify (-100) = Tier.PoorFit :=
  C9_classifier_total.1 (-100) (by norm_num)

/-- Claim C10: with a click count of zero the callback returns the empty
output and performs no validation, no file write and no scoring — whatever
the uploaded contents, filenames and job description are, the result is the
empty children and an empty effect log. -/
theorem C10_zero_clicks_noop (env : Env) (contents : Option (List String))
    (filenames : List String) (job_desc : Option String) :
    analyze_resumes env 0 contents filenames job_desc = (Output.empty, []) := by
  simp [analyze_resumes]

/-- Counterexample to claim C8: the normalizer does not strip whitespace
(the trailing blank of `" x "` survives into `"query:  x "`), and the empty
string does not stay empty — it becomes the non-empty prefix `"query: "`. -/
theorem C8_counterexample :
    normalizeQuery "" = "query: " ∧ normalizeQuery "" ≠ "" ∧
    normalizeQuery " x " = "query:  x " ∧
    normalizePassage " x " = "passage:  x " ∧
    (normalizeQuery " x ").data.getLast? = some ' ' := by
  refine ⟨by decide, by decide, by decide, by decide, by decide⟩

/-- Claim C8 amended: the normalizer strips nothing and never maps any input
to the empty string.  It prepends the role prefix to the raw text: the output
length is always the input length plus the prefix length (7 for `"query: "`,
9 for `"passage: "`), so the empty input becomes the non-empty bare prefix,
and the last character of a non-empty input (whitespace included) is
preserved. -/
theorem C8_amended (s : String) :
    (normalizeQuery s).length = s.length + 7 ∧
    (normalizePassage s).length = s.length + 9 ∧
    (∀ c, s.data.getLast? = some c →
      (normalizeQuery s).data.getLast? = some c ∧
      (normalizePassage s).data.getLast? = some c) := by
  refine ⟨?_, ?_, ?_⟩
  · rw [normalizeQuery, String.length_append,
      show "query: ".length = 7 from rfl]
    omega
  · rw [normalizePassage, String.length_append,
      show "passage: ".length = 9 from rfl]
    omega
  · intro c hc
    have hd : s.data ≠ [] := by
      intro h0
      rw [h0] at hc
      simp at hc
    constructor
    · rw [normalizeQuery, string_data_append,
        List.getLast?_append_of_ne_nil _ hd]
      exact hc
    · rw [normalizePassage, string_data_append,
        List.getLast?_append_of_ne_nil _ hd]
      exact hc

/-- Witness for C8 amended at `" x "` and `' '`. -/
theorem C8_witness :
    (normalizeQuery " x ").length = " x ".length + 7 ∧
    (normalizeQuery " x ").data.getLast? = some ' ' :=
  ⟨(C8_amended " x ").1, ((C8_amended " x ").2.2 ' ' (by decide)).1⟩

/-- Counterexample to claim C1: the source maps cosine to `cosine * 100`,
not `(cosine + 1) / 2 * 100`.  For the unit-normalised embedding `embC1`
with cosine `-7/25` the returned score is `-28`, which is negative (outside
[0, 100]) and differs from the `36` the claimed mapping would give. -/
theorem C1_counterexample :
    dot (embC1 (normalizePassage "r")) (embC1 (normalizePassage "r")) = 1 ∧
    dot (embC1 (normalizeQuery "j")) (embC1 (normalizeQuery "j")) = 1 ∧
    compute_similarity embC1 "r" "j" = -28 ∧
    compute_similarity embC1 "r" "j" < 0 ∧
    compute_similarity embC1 "r" "j" ≠
      round2 ((dot (embC1 (normalizePassage "r")) (embC1 (normalizeQuery "j"))
        + 1) / 2 * 100) := by
  have h1 : embC1 (normalizePassage "r") = [3/5, 4/5] := by
    simp +decide [embC1, normalizePassage, normalizeQuery]
  have h2 : embC1 (normalizeQuery "j") = [3/5, -4/5] := by
    simp +decide [embC1, normalizeQuery]
  refine ⟨?_, ?_, ?_, ?_, ?_⟩ <;>
    norm_num [h1, h2, compute_similarity, computeSimilarityT, dot,
      round2, roundHalfEven]

/-- Claim C1 amended: the similarity score is the cosine mapped by
`cosine * 100` (not `(cosine + 1) / 2 * 100`), rounded to two decimal
places; for unit-normalised embedding vectors it therefore lies in
[-100, 100], not [0, 100]. -/
theorem C1_amended (emb : String → List ℚ) (r j : String)
    (hr : dot (emb (normalizePassage r)) (emb (normalizePassage r)) = 1)
    (hj : dot (emb (normalizeQuery j)) (emb (normalizeQuery j)) = 1) :
    compute_similarity emb r j =
      round2 (dot (emb (normalizePassage r)) (emb (normalizeQuery j)) * 100) ∧
    -100 ≤ compute_similarity emb r j ∧ compute_similarity emb r j ≤ 100 := by
  have heq : compute_similarity emb r j =
      round2 (dot (emb (normalizePassage r)) (emb (normalizeQuery j)) * 100) := rfl
  have hb := dot_abs_le_one hr hj
  have hbounds := round2_bounds
    (x := dot (emb (normalizePassage r)) (emb (normalizeQuery j)) * 100)
    (by nlinarith [hb.1]) (by nlinarith [hb.2])
  exact ⟨heq, by rw [heq]; exact hbounds.1, by rw [heq]; exact hbounds.2⟩

/-- Witness for C1 amended with the constant unit embedding. -/
theorem C1_witness :
    -100 ≤ compute_similarity (fun _ => ([1] : List ℚ)) "r" "j" ∧
    compute_similarity (fun _ => ([1] : List ℚ)) "r" "j" ≤ 100 :=
  (C1_amended (fun _ => [1]) "r" "j" (by norm_num [dot]) (by norm_num [dot])).2

/-- Counterexample to claim C5: a whitespace-only job description is truthy
in Python, so the request is **not** rejected: the batch is processed
(a results table with one row is produced) and the embedding provider is
invoked twice, not zero times. -/
theorem C5_counterexample :
    isResultsOutput (analyze_resumes envW 1 (some ["h,AAAA"]) ["a.pdf"]
      (some " ")).1 = true ∧
    embedTexts (analyze_resumes envW 1 (some ["h,AAAA"]) ["a.pdf"]
      (some " ")).2 = ["query:  ", "passage: AAAA"] ∧
    requestRows envW 1 (some ["h,AAAA"]) ["a.pdf"] (some " ") =
      [{ resume := "a.pdf", score := 100, recommendation := "Strong Fit ✅" }] := by
  simp +decide [analyze_resumes, analyzeValid, buildResults, processDoc, envW,
    pySplitComma, splitCommaAux, extract_text_from_pdf, pyStrip, isPySpace,
    computeSimilarityT, normalizeQuery, normalizePassage, dot,
    pandasSortValuesDesc, sortAsc, insertAsc, pyFalsyList, pyFalsyStr, errRow,
    embedTexts, requestRows, outputRows, isResultsOutput]
  try norm_num [round2, roundHalfEven, classify, tierLabel]

/-- Claim C5 amended: a request with a falsy upload state (`None` or the
empty list) or a falsy job description (`None` or the empty string) fails as
a whole with the validation alert before any work: zero embedding-provider
calls and no per-document results.  (A whitespace-only job description is
truthy and is not rejected — see the counterexample.) -/
theorem C5_amended (env : Env) (n : Nat) (contents : Option (List String))
    (filenames : List String) (job_desc : Option String) (hn : n ≠ 0)
    (h : pyFalsyList contents = true ∨ pyFalsyStr job_desc = true) :
    analyze_resumes env n contents filenames job_desc =
      (Output.alert "Please upload resumes and provide a job description.", []) ∧
    embedTexts (analyze_resumes env n contents filenames job_desc).2 = [] ∧
    requestRows env n contents filenames job_desc = [] := by
  have heq : analyze_resumes env n contents filenames job_desc =
      (Output.alert "Please upload resumes and provide a job description.", []) := by
    unfold analyze_resumes
    rw [if_neg hn, if_pos (by rcases h with h | h <;> simp [h])]
  refine ⟨heq, ?_, ?_⟩
  · rw [heq]
    rfl
  · rw [requestRows, heq]
    rfl

/-- Witness for C5 amended: an empty upload state with a missing job
description is rejected with no effects. -/
theorem C5_witness :
    analyze_resumes envW 1 none [] none =
      (Output.alert "Please upload resumes and provide a job description.", []) ∧
    embedTexts (analyze_resumes envW 1 none [] none).2 = [] ∧
    requestRows envW 1 none [] none = [] :=
  C5_amended envW 1 none [] none (by decide) (Or.inl (by decide))

/-- Counterexample to claim C6: on a fully successful two-document batch the
embedding provider is invoked four times, not `n + 1 = 3`: the per-pair
similarity call re-embeds the job description for every resume, so
`"query: j"` is embedded twice, not once. -/
theorem C6_counterexample :
    embedTexts (analyze_resumes envW 1 (some ["h,AAAA", "h,BBBB"])
      ["a.pdf", "b.pdf"] (some "j")).2 =
      ["query: j", "passage: AAAA", "query: j", "passage: BBBB"] ∧
    (embedTexts (analyze_resumes envW 1 (some ["h,AAAA", "h,BBBB"])
      ["a.pdf", "b.pdf"] (some "j")).2).length = 4 ∧
    (embedTexts (analyze_resumes envW 1 (some ["h,AAAA", "h,BBBB"])
      ["a.pdf", "b.pdf"] (some "j")).2).count "query: j" = 2 ∧
    (embedTexts (analyze_resumes envW 1 (some ["h,AAAA", "h,BBBB"])
      ["a.pdf", "b.pdf"] (some "j")).2).length ≠
      (requestDocs (some ["h,AAAA", "h,BBBB"]) ["a.pdf", "b.pdf"]).length + 1 := by
  simp +decide [analyze_resumes, analyzeValid, buildResults, processDoc, envW,
    pySplitComma, splitCommaAux, extract_text_from_pdf, pyStrip, isPySpace,
    computeSimilarityT, normalizeQuery, normalizePassage, dot,
    pandasSortValuesDesc, sortAsc, insertAsc, pyFalsyList, pyFalsyStr, errRow,
    embedTexts, requestDocs, List.count_cons, List.count_nil]
  try norm_num [round2, roundHalfEven, classify, tierLabel]

/-- Claim C6 amended: the job description is **not** embedded once per
request; `compute_similarity` embeds it anew for every resume.  On a fully
successful batch of `n` documents the embedding provider is invoked exactly
`2 * n` times, and the query-framed job description is embedded exactly `n`
times. -/
theorem C6_amended (env : Env) (n : Nat) (contents : Option (List String))
    (filenames : List String) (job_desc : Option String) (hn : n ≠ 0)
    (hc : pyFalsyList contents = false) (hj : pyFalsyStr job_desc = false)
    (hok : ∀ d ∈ requestDocs contents filenames, docOk env d.1 = true) :
    (embedTexts (analyze_resumes env n contents filenames job_desc).2).length =
      2 * (requestDocs contents filenames).length ∧
    (embedTexts (analyze_resumes env n contents filenames job_desc).2).count
      (normalizeQuery (job_desc.getD "")) =
      (requestDocs contents filenames).length := by
  rw [analyze_resumes_valid env n contents filenames job_desc hn hc hj,
    analyzeValid_snd]
  exact buildResults_embedTexts_ok env (job_desc.getD "")
    ((contents.getD []).zip filenames) hok

/-- Witness for C6 amended on a one-document batch: two provider calls, one
of them the job description. -/
theorem C6_witness :
    (embedTexts (analyze_resumes envW 1 (some ["h,AAAA"]) ["a.pdf"]
      (some "j")).2).length = 2 * (requestDocs (some ["h,AAAA"]) ["a.pdf"]).length ∧
    (embedTexts (analyze_resumes envW 1 (some ["h,AAAA"]) ["a.pdf"]
      (some "j")).2).count (normalizeQuery ((some "j" : Option String).getD "")) =
      (requestDocs (some ["h,AAAA"]) ["a.pdf"]).length :=
  C6_amended envW 1 (some ["h,AAAA"]) ["a.pdf"] (some "j") (by decide)
    (by decide) (by decide) (by decide)

/-- Claim C2: for every non-empty validated batch the analysis renders a
results table with exactly one Match Result per submitted document —
`len(results) == len(documents)` — whether or not individual documents
fail.  (Dash supplies `contents` and `filenames` as parallel lists, recorded
here as the length hypothesis.) -/
theorem C2_one_result_per_document (env : Env) (n : Nat)
    (contents : Option (List String)) (filenames : List String)
    (job_desc : Option String) (hn : n ≠ 0) (hc : pyFalsyList contents = false)
    (hj : pyFalsyStr job_desc = false)
    (hlen : (contents.getD []).length = filenames.length) :
    isResultsOutput (analyze_resumes env n contents filenames job_desc).1 = true ∧
    (requestRows env n contents filenames job_desc).length =
      (requestDocs contents filenames).length := by
  have hne := nonempty_docs_of_valid hc hlen
  have hv := analyze_resumes_valid env n contents filenames job_desc hn hc hj
  obtain ⟨hrows, hres⟩ :=
    analyzeValid_rows env (contents.getD []) filenames (job_desc.getD "") hne
  constructor
  · rw [hv]
    exact hres
  · rw [requestRows, hv, hrows, pandasSortValuesDesc_length, buildResults_length]
    rfl

/-- Witness for C2 on a two-document batch in which the second document
fails to parse. -/
theorem C2_witness :
    isResultsOutput (analyze_resumes envW 1 (some ["h,AAAA", "nocomma"])
      ["a.pdf", "b.pdf"] (some "j")).1 = true ∧
    (requestRows envW 1 (some ["h,AAAA", "nocomma"]) ["a.pdf", "b.pdf"]
      (some "j")).length =
      (requestDocs (some ["h,AAAA", "nocomma"]) ["a.pdf", "b.pdf"]).length :=
  C2_one_result_per_document envW 1 (some ["h,AAAA", "nocomma"])
    ["a.pdf", "b.pdf"] (some "j") (by decide) (by decide) (by decide) (by decide)

/-- Counterexample to claim C3: a successfully scored document can score
below zero (`-100` here, since the unclamped mapping is `cosine * 100`), in
which case it sorts **below** an errored zero-score entry: the errored row
comes first in the output, above the successfully scored row. -/
theorem C3_counterexample :
    requestRows envC3 1 (some ["h,R", "nocomma"]) ["good.pdf", "bad.pdf"]
      (some "jd") =
      [{ resume := "bad.pdf", score := 0,
         recommendation := "Error: not enough values to unpack (expected 2)" },
       { resume := "good.pdf", score := -100,
         recommendation := "Poor Fit ❌" }] ∧
    ¬ ErroredBelowScored (requestRows envC3 1 (some ["h,R", "nocomma"])
      ["good.pdf", "bad.pdf"] (some "jd")) := by
  have heq : requestRows envC3 1 (some ["h,R", "nocomma"])
      ["good.pdf", "bad.pdf"] (some "jd") =
      [{ resume := "bad.pdf", score := 0,
         recommendation := "Error: not enough values to unpack (expected 2)" },
       { resume := "good.pdf", score := -100,
         recommendation := "Poor Fit ❌" }] := by
    simp +decide [analyze_resumes, analyzeValid, buildResults, processDoc, envC3,
      pySplitComma, splitCommaAux, extract_text_from_pdf, pyStrip, isPySpace,
      computeSimilarityT, normalizeQuery, normalizePassage, dot,
      pandasSortValuesDesc, sortAsc, insertAsc, pyFalsyList, pyFalsyStr, errRow,
      requestRows, outputRows]
    try norm_num [round2, roundHalfEven, classify, tierLabel]
  refine ⟨heq, ?_⟩
  rw [heq]
  intro h
  have h2 := h 0 1 (by decide) (by decide)
  exact absurd (h2 (by decide) (by decide)) (by omega)

/-- Claim C3 amended: every failed document still yields its own Match
Result with score 0 and a non-empty error text; the result multiset is
exactly one independently computed row per document (one bad resume cannot
affect another's row); and an errored (zero-score) entry appears below every
entry with **positive** score.  (It need not appear below every successfully
scored entry: successful scores can be negative and then sort below the
errored zeros — see the counterexample.) -/
theorem C3_amended (env : Env) (n : Nat) (contents : Option (List String))
    (filenames : List String) (job_desc : Option String) (hn : n ≠ 0)
    (hc : pyFalsyList contents = false) (hj : pyFalsyStr job_desc = false)
    (hlen : (contents.getD []).length = filenames.length) :
    (requestRows env n contents filenames job_desc).Perm
      ((requestDocs contents filenames).map fun d =>
        (processDoc env (job_desc.getD "") d.1 d.2).1) ∧
    (∀ d ∈ requestDocs contents filenames, docOk env d.1 = false →
      (processDoc env (job_desc.getD "") d.1 d.2).1.score = 0 ∧
      (processDoc env (job_desc.getD "") d.1 d.2).1.recommendation ≠ "") ∧
    (∀ i j (hi : i < (requestRows env n contents filenames job_desc).length)
        (hj2 : j < (requestRows env n contents filenames job_desc).length),
      ((requestRows env n contents filenames job_desc).get ⟨i, hi⟩).score = 0 →
      0 < ((requestRows env n contents filenames job_desc).get ⟨j, hj2⟩).score →
      j < i) := by
  have hne := nonempty_docs_of_valid hc hlen
  have hv := analyze_resumes_valid env n contents filenames job_desc hn hc hj
  have hr := (analyzeValid_rows env (contents.getD []) filenames
    (job_desc.getD "") hne).1
  have h1 : requestRows env n contents filenames job_desc =
      pandasSortValuesDesc (fun r => r.score)
        (buildResults env (job_desc.getD "") (requestDocs contents filenames)).1 := by
    rw [requestRows, hv]
    exact hr
  refine ⟨?_, ?_, ?_⟩
  · rw [h1, buildResults_fst]
    exact pandasSortValuesDesc_perm _ _
  · intro d hd hfail
    obtain ⟨e, he⟩ := processDoc_fail env (job_desc.getD "") d.1 d.2 hfail
    rw [he]
    exact ⟨rfl, errRow_recommendation_ne_empty d.2 e⟩
  · intro i j hi hj2 hzero hpos
    have hsort : (requestRows env n contents filenames job_desc).Pairwise
        (fun a b => b.score ≤ a.score) := by
      rw [h1]
      exact pandasSortValuesDesc_sorted _ _
    by_contra hcon
    push_neg at hcon
    rcases Nat.eq_or_lt_of_le hcon with heq2 | hlt
    · have hfe : (⟨j, hj2⟩ : Fin (requestRows env n contents filenames
          job_desc).length) = ⟨i, hi⟩ := Fin.ext heq2.symm
      rw [hfe] at hpos
      linarith
    · have hle := List.pairwise_iff_get.mp hsort ⟨i, hi⟩ ⟨j, hj2⟩ hlt
      rw [hzero] at hle
      linarith

/-- Witness for C3 amended on a batch with one negatively scoring success
and one parse failure. -/
theorem C3_witness :
    (requestRows envC3 1 (some ["h,R", "nocomma"]) ["good.pdf", "bad.pdf"]
      (some "jd")).Perm
      ((requestDocs (some ["h,R", "nocomma"]) ["good.pdf", "bad.pdf"]).map fun d =>
        (processDoc envC3 ((some "jd" : Option String).getD "") d.1 d.2).1) ∧
    (∀ d ∈ requestDocs (some ["h,R", "nocomma"]) ["good.pdf", "bad.pdf"],
      docOk envC3 d.1 = false →
      (processDoc envC3 ((some "jd" : Option String).getD "") d.1 d.2).1.score = 0 ∧
      (processDoc envC3 ((some "jd" : Option String).getD "") d.1 d.2).1.recommendation ≠ "") ∧
    (∀ i j (hi : i < (requestRows envC3 1 (some ["h,R", "nocomma"])
        ["good.pdf", "bad.pdf"] (some "jd")).length)
        (hj2 : j < (requestRows envC3 1 (some ["h,R", "nocomma"])
          ["good.pdf", "bad.pdf"] (some "jd")).length),
      ((requestRows envC3 1 (some ["h,R", "nocomma"]) ["good.pdf", "bad.pdf"]
        (some "jd")).get ⟨i, hi⟩).score = 0 →
      0 < ((requestRows envC3 1 (some ["h,R", "nocomma"]) ["good.pdf", "bad.pdf"]
        (some "jd")).get ⟨j, hj2⟩).score →
      j < i) :=
  C3_amended envC3 1 (some ["h,R", "nocomma"]) ["good.pdf", "bad.pdf"]
    (some "jd") (by decide) (by decide) (by decide) (by decide)

end ResumeScreening

